import Mathlib

/-!
# Verification of the lsp-live-reload core

A shallow embedding, in Lean 4, of the reload-orchestration core of the
`lsp-live-reload` package (the library file `lsp_session_dev.ts`), together
with theorems settling the spec claims about it.

The embedding covers:

* the Node `path` (posix) primitives the planner uses — `isAbsolute`,
  `normalize`, `dirname`, `basename` — transcribed from the algorithms of Node;
* `computeBackupOptions`, the pure backup planner;
* `performAsyncWithRetry`, the fixed-interval retry runner, as a function
  from the per-invocation outcomes of the action to a trace recording the
  final result, the number of invocations, and the number of delays;
* the `copyType = "file"` branch of the backup action (copyFile with the
  ENOENT-is-success catch) over a flat file-store model;
* `LspLiveReload.#performReload` as a function from the outcomes of its
  awaited operations to the emitted list of lifecycle events, with
  `#emitError` swallowing `AbortError`;
* the basename filter of the watcher change handler;
* a small interleaving model of debounce-triggered reload cycles, used to
  examine the absence of a single-flight guard.

Asynchrony is modelled by value passing: every awaited operation is an
explicit outcome (`Except Fault Unit`), and an operation that failed because
the abort signal of the session had been set fails with `Fault.abortError`, the
embedding of the `AbortError` class thrown at the cancellation checkpoints
(`if (signal.aborted) throw new AbortError()`).
-/

deriving instance DecidableEq for Except

namespace LspLiveReload

/-! ## Node posix path model

Transcriptions of the algorithms of the Node `path` module (posix flavour),
which `computeBackupOptions` calls. `path.sep` is `"/"`.
-/

/-- `path.isAbsolute` (posix): the path starts with a slash. -/
def isAbsolute (p : String) : Bool :=
  match p.data with
  | '/' :: _ => true
  | _ => false

/-- Whether the path ends with the (posix) separator `/`. -/
def endsWithSlash (p : String) : Bool :=
  p.data.getLast? = some '/'

/-- Splitting a character list at every `/`, keeping empty segments: the
behaviour of `p.split("/")` on the characters of the path. -/
def splitSlash : List Char → List Char → List String
  | [], acc => [String.mk acc.reverse]
  | '/' :: rest, acc => String.mk acc.reverse :: splitSlash rest []
  | c :: rest, acc => splitSlash rest (c :: acc)

/-- Joining path components with `/` between them. -/
def joinSlash : List String → String
  | [] => ""
  | [comp] => comp
  | comp :: rest => comp ++ "/" ++ joinSlash rest

/-- The component resolution inside the Node function `normalizeString`: empty and `.`
components are skipped; `..` pops the last component unless the stack is
empty or already ends with `..`, in which case it is kept only when
`allowAboveRoot` (i.e. for relative paths). -/
def normalizeParts (allowAboveRoot : Bool) (parts : List String) : List String :=
  parts.foldl
    (fun acc comp =>
      if comp = "" then acc
      else if comp = "." then acc
      else if comp = ".." then
        match acc.getLast? with
        | some last =>
          if last = ".." then (if allowAboveRoot then acc ++ [".."] else acc)
          else acc.dropLast
        | none => if allowAboveRoot then acc ++ [".."] else acc
      else acc ++ [comp])
    []

/-- `path.normalize` (posix). -/
def normalize (p : String) : String :=
  if p = "" then "."
  else
    let isAbs := isAbsolute p
    let trailingSeparator := endsWithSlash p
    let core := joinSlash (normalizeParts (!isAbs) (splitSlash p.data []))
    if core = "" then
      if isAbs then "/" else if trailingSeparator then "./" else "."
    else
      let core := if trailingSeparator then core ++ "/" else core
      if isAbs then "/" ++ core else core

/-- The index scan of `path.dirname` (posix): walking from the end of the
string down to index 1, skip trailing slashes, then return the index of the
first slash that follows a non-slash character (`none` when there is no such
index, mirroring `end === -1`). -/
def dirnameScan (cs : List Char) : Nat → Bool → Option Nat
  | 0, _ => none
  | i + 1, matchedSlash =>
    if cs.get? (i + 1) = some '/' then
      if matchedSlash then dirnameScan cs i matchedSlash else some (i + 1)
    else dirnameScan cs i false

/-- `path.dirname` (posix). -/
def dirname (p : String) : String :=
  if p = "" then "."
  else
    let cs := p.data
    let hasRoot := isAbsolute p
    match dirnameScan cs (cs.length - 1) true with
    | none => if hasRoot then "/" else "."
    | some e => if hasRoot && e = 1 then "//" else String.mk (cs.take e)

/-- `path.basename` (posix, no extension argument): the last maximal run of
non-slash characters before any trailing slashes; `""` when there is none. -/
def basename (p : String) : String :=
  String.mk (((p.data.reverse.dropWhile (fun c => c = '/')).takeWhile
    (fun c => c ≠ '/')).reverse)

/-- `stripTrailingSep` from the source: drop one trailing `path.sep`. -/
def stripTrailingSep (p : String) : String :=
  if endsWithSlash p then String.mk (p.data.take (p.data.length - 1)) else p

/-! ## The backup planner -/

/-- `BackupOptions.copyType`. -/
inductive CopyType where
  | file
  | directory
deriving DecidableEq, Repr

/-- The `BackupOptions` record computed by the planner and consumed by
`LspLiveReload`. -/
structure BackupOptions where
  copyType : CopyType
  /-- Source file or directory on backup. -/
  copySrc : String
  /-- Destination file or directory on backup. -/
  copyDest : String
  /-- Directory to be watched. -/
  watchDir : String
  /-- Basename of file to be watched if not null. -/
  watchFile : Option String
deriving DecidableEq, Repr

/-- The `backup` option of `computeBackupOptions`. -/
inductive BackupStrategy where
  | commandOnly
  | parentDirectory
deriving DecidableEq, Repr

/-- The record returned by `computeBackupOptions`: the rewritten server
command and the backup options. -/
structure ComputeResult where
  command : String
  backupOptions : BackupOptions
deriving DecidableEq, Repr

/-- `computeBackupOptions` from the source. The two `throw new Error(...)`
validations are modelled as `Except.error` carrying the message; the function
is pure (no I/O) exactly as in the source. -/
def computeBackupOptions (command : String) (backup : BackupStrategy) :
    Except String ComputeResult :=
  if !isAbsolute command then
    Except.error ("command (path to LSP server executable) must be absolute: " ++ command)
  else if dirname command = "/" then
    Except.error "command must be under a non-root directory."
  else
    let normalizedCommand := normalize command
    match backup with
    | BackupStrategy.commandOnly =>
      let destCommand := normalizedCommand ++ ".BACKUP.exe"
      Except.ok
        { command := destCommand
          backupOptions :=
            { copyType := CopyType.file
              copySrc := normalizedCommand
              copyDest := normalizedCommand ++ ".BACKUP.exe"
              watchDir := dirname normalizedCommand
              watchFile := some (basename normalizedCommand) } }
    | BackupStrategy.parentDirectory =>
      let copySrc := stripTrailingSep (dirname normalizedCommand)
      let copyDest := copySrc ++ ".BACKUP.d"
      let destCommand := copyDest ++ "/" ++ basename normalizedCommand
      Except.ok
        { command := destCommand
          backupOptions :=
            { copyType := CopyType.directory
              copySrc := copySrc
              copyDest := copyDest
              watchDir := copySrc
              watchFile := none } }

example : normalize "/a/b/c.exe" = "/a/b/c.exe" := by decide
example : dirname "/a/b/c.exe" = "/a/b" := by decide
example : basename "/a/b/c.exe" = "c.exe" := by decide
example : dirname "/a" = "/" := by decide
example : dirname "//a" = "//" := by decide
example : normalize "/x/../y" = "/y" := by decide
example : dirname "/x/../y" = "/x/.." := by decide
example : basename "/" = "" := by decide
example : normalize "/a/.." = "/" := by decide

example :
    computeBackupOptions "/a/b/c.exe" BackupStrategy.commandOnly =
      Except.ok
        { command := "/a/b/c.exe.BACKUP.exe"
          backupOptions :=
            { copyType := CopyType.file
              copySrc := "/a/b/c.exe"
              copyDest := "/a/b/c.exe.BACKUP.exe"
              watchDir := "/a/b"
              watchFile := some "c.exe" } } := by decide

example :
    computeBackupOptions "/a/b/c.exe" BackupStrategy.parentDirectory =
      Except.ok
        { command := "/a/b.BACKUP.d/c.exe"
          backupOptions :=
            { copyType := CopyType.directory
              copySrc := "/a/b"
              copyDest := "/a/b.BACKUP.d"
              watchDir := "/a/b"
              watchFile := none } } := by decide

example :
    computeBackupOptions "/x/../y" BackupStrategy.commandOnly =
      Except.ok
        { command := "/y.BACKUP.exe"
          backupOptions :=
            { copyType := CopyType.file
              copySrc := "/y"
              copyDest := "/y.BACKUP.exe"
              watchDir := "/"
              watchFile := some "y" } } := by decide

example : computeBackupOptions "rel/path" BackupStrategy.commandOnly =
    Except.error "command (path to LSP server executable) must be absolute: rel/path" := by decide

example : computeBackupOptions "/a" BackupStrategy.parentDirectory =
    Except.error "command must be under a non-root directory." := by decide

example : basename (normalize "/a/..") = "" := by decide

/-! ## Faults and lifecycle events -/

/-- Faults a step of the reload sequence can fail with. `abortError` embeds
the `AbortError` class thrown at the cancellation checkpoints
(`if (signal.aborted) throw new AbortError()` in the watcher setup and in
`copyDirRecursively`); `ioError` carries a Node error code such as `ENOENT`;
`clientError` stands for a failure of `client.stop` or `client.start`. -/
inductive Fault where
  | abortError
  | ioError (code : String)
  | clientError (msg : String)
deriving DecidableEq, Repr

/-- The `EventType` union of the source, with the `error` events carrying
their fault (the source wraps the fault in an `ErrorEvent`). The source
declares `didStartClient`, `willClean` and `didClean` but, like the source,
nothing below ever produces them. -/
inductive LEvent where
  | willReload
  | didReload
  | willStartClient
  | didStartClient
  | willStopClient
  | didStopClient
  | willCopy
  | didCopy
  | willClean
  | didClean
  | error (cause : Fault)
deriving DecidableEq, Repr

/-- `LspLiveReload.#emitError`: dispatches an `ErrorEvent` for the fault,
except that an `AbortError` is swallowed (`if (e instanceof AbortError)
return`). The result is the list of events this call dispatches. -/
def emitError (f : Fault) : List LEvent :=
  if f = Fault.abortError then [] else [LEvent.error f]

/-! ## The reload sequence (`LspLiveReload.#performReload`)

The awaited operations of one run of `#performReload` are embedded by their
outcomes: `stopResult` is the outcome of `await client.stop(2000)` (followed
by the fixed `delay(2200)` grace wait, which cannot fail), `copyResult` the
outcome of `await this.#backupFiles()` (the post-retry outcome of the copy),
and `startResult` the outcome of `await client.start()`. `aborted` is the
value of `this.#abortController.signal.aborted` at entry, and `needsStop`
the value of `client.needsStop()`.
-/

/-- The observed outcomes of one run of `#performReload`. -/
structure ReloadEnv where
  aborted : Bool
  needsStop : Bool
  stopResult : Except Fault Unit
  copyResult : Except Fault Unit
  startResult : Except Fault Unit
deriving DecidableEq, Repr

/-- The `try`-block of `#performReload`: the events emitted in order, and
how the block finished (`Except.error f` when some awaited operation threw
`f`, short-circuiting the rest). -/
def performReloadTry (env : ReloadEnv) : List LEvent × Except Fault Unit :=
  -- this.#emit("willReload")
  let evs0 := [LEvent.willReload]
  -- if (client.needsStop()) then emit willStopClient; await client.stop(2000);
  -- await delay(2200); emit didStopClient
  let stopStep : List LEvent × Except Fault Unit :=
    if env.needsStop then
      match env.stopResult with
      | Except.error f => (evs0 ++ [LEvent.willStopClient], Except.error f)
      | Except.ok _ => (evs0 ++ [LEvent.willStopClient, LEvent.didStopClient], Except.ok ())
    else (evs0, Except.ok ())
  match stopStep with
  | (evs, Except.error f) => (evs, Except.error f)
  | (evs, Except.ok _) =>
    -- this.#emit("willCopy"); await this.#backupFiles(); this.#emit("didCopy")
    match env.copyResult with
    | Except.error f => (evs ++ [LEvent.willCopy], Except.error f)
    | Except.ok _ =>
      -- this.#emit("willStartClient"); await client.start()
      match env.startResult with
      | Except.error f =>
        (evs ++ [LEvent.willCopy, LEvent.didCopy, LEvent.willStartClient], Except.error f)
      | Except.ok _ =>
        -- this.#emit("didReload")
        (evs ++ [LEvent.willCopy, LEvent.didCopy, LEvent.willStartClient, LEvent.didReload],
          Except.ok ())

/-- `#performReload`: no-op when the abort signal is already set; otherwise
run the `try`-block and, on failure, dispatch via `#emitError` (the `catch`
clause). The result is the list of events the run dispatches, in order. -/
def performReload (env : ReloadEnv) : List LEvent :=
  if env.aborted then []
  else
    match performReloadTry env with
    | (evs, Except.ok _) => evs
    | (evs, Except.error f) => evs ++ emitError f

/-- The fault of the awaited operation at which a run of `#performReload`
failed, if any. -/
def firstFault (env : ReloadEnv) : Option Fault :=
  if env.aborted then none
  else
    match (performReloadTry env).2 with
    | Except.error f => some f
    | Except.ok _ => none

/-! ## The retry runner (`performAsyncWithRetry`) -/

/-- `DEBOUNCE_TIME` from the source (milliseconds). -/
def DEBOUNCE_TIME : Nat := 700

/-- `RETRY_TIME` from the source (milliseconds). -/
def RETRY_TIME : Nat := 60 * 1000

/-- `RETRY_INTERVAL` from the source (milliseconds). -/
def RETRY_INTERVAL : Nat := 100

/-- The retry budget the orchestrator passes to `performAsyncWithRetry`
(`count: RETRY_TIME / RETRY_INTERVAL`, i.e. 600 attempts). -/
def retryCount : Nat := RETRY_TIME / RETRY_INTERVAL

/-- What one run of `performAsyncWithRetry` did: the final outcome, the
number of invocations of the action, and the number of inter-attempt delays
performed. -/
structure RetryTrace (ε α : Type) where
  result : Except ε α
  calls : Nat
  delays : Nat
deriving DecidableEq, Repr

/-- The `for` loop of `performAsyncWithRetry`. The action is embedded by the
outcome of each of its invocations: `act i` is what the `(i+1)`-th call of
`action()` returns or throws. `remaining` counts the loop iterations still
to run (`count - 1 - i` in the source); when it reaches zero the loop is
over and the final `return await action()` runs, whose outcome — success or
failure — is returned as-is. Inside the loop a success returns at once
(before any delay) and a failure is caught, followed by `await
delay(intervalMs)`. -/
def retryLoop {ε α : Type} (act : Nat → Except ε α) : Nat → Nat → RetryTrace ε α
  | 0, i => { result := act i, calls := i + 1, delays := i }
  | remaining + 1, i =>
    match act i with
    | Except.ok a => { result := Except.ok a, calls := i + 1, delays := i }
    | Except.error _ => retryLoop act remaining (i + 1)

/-- `performAsyncWithRetry`: `count <= 0` is an illegal use and throws
before any invocation of the action (modelled as `none`); otherwise the loop
runs `count - 1` iterations followed by the final call. -/
def performAsyncWithRetry {ε α : Type} (act : Nat → Except ε α) (count : Nat) :
    Option (RetryTrace ε α) :=
  if count = 0 then none
  else some (retryLoop act (count - 1) 0)

/-! ## The file-backup action (`copyType = "file"` branch of `#backupFiles`) -/

/-- A flat file store: each path either holds contents or does not exist. -/
def FileSys : Type := String → Option String

/-- `fsP.copyFile(src, dest)`: when the source does not exist the call
rejects with the Node error code `ENOENT` and the store is unchanged;
otherwise the bytes of the source are written at the destination (overwrite). -/
def copyFile (fs : FileSys) (src dest : String) : FileSys × Except Fault Unit :=
  match fs src with
  | none => (fs, Except.error (Fault.ioError "ENOENT"))
  | some contents =>
    ((fun p => if p = dest then some contents else fs p), Except.ok ())

/-- One invocation of the `copyType = "file"` branch of the backup action:
`fsP.copyFile(copySrc, copyDest).catch(err => if err.code === "ENOENT" then
return else throw err)`. -/
def backupFileAction (fs : FileSys) (copySrc copyDest : String) :
    FileSys × Except Fault Unit :=
  match copyFile fs copySrc copyDest with
  | (fs2, Except.error (Fault.ioError code)) =>
    if code = "ENOENT" then (fs2, Except.ok ())
    else (fs2, Except.error (Fault.ioError code))
  | (fs2, Except.error f) => (fs2, Except.error f)
  | (fs2, Except.ok _) => (fs2, Except.ok ())

/-! ## The watcher change handler -/

/-- The `watcher.on("change", (_ev, filename) => ...)` handler: returns
`true` exactly when the handler reaches `requestReload()`. `watchFile` is
the configured `backupOptions.watchFile` (`none` for `null`), `filename` the
entry basename delivered by the change event (`none` when Node delivers no
filename). The guard is, from the source,
`if (backupOptions.watchFile && backupOptions.watchFile !== filename)
return`; note that the first conjunct is JavaScript truthiness, so an empty
string behaves like `null`. -/
def onWatchChange (watchFile : Option String) (filename : Option String) : Bool :=
  let truthy : Bool :=
    match watchFile with
    | some w => w ≠ ""
    | none => false
  if truthy ∧ watchFile ≠ filename then false else true

/-! ## Debounced triggers and concurrent reload cycles

A small interleaving model of the event loop of one session, for the claims about
overlapping reload cycles. A reload cycle is a run of `#performReload`; its
body suspends at each `await` (`client.stop` and the grace delay, the copy,
`client.start`), so the JavaScript event loop may run other callbacks —
including the debounced `requestReload` timer firing again — while a cycle
is suspended. The phases below name the suspension point a running cycle is
parked at. -/
inductive CyclePhase where
  /-- Suspended in `await client.stop(2000)` or the following grace delay. -/
  | stopping
  /-- Suspended in `await this.#backupFiles()`. -/
  | copying
  /-- Suspended in `await client.start()`. -/
  | starting
deriving DecidableEq, Repr

/-- The state of the session: the abort flag and the reload cycles currently in
progress (each parked at a suspension point), oldest first. -/
structure SessionState where
  aborted : Bool
  active : List CyclePhase
deriving DecidableEq, Repr

/-- The state of a fresh session: not aborted, no cycle running. -/
def initialSession : SessionState :=
  { aborted := false, active := [] }

/-- One event-loop step of the session. `debounceFire` is the debounce
timer elapsing and invoking `#performReload`: the source guards this solely
by `if (signal.aborted) return` — it does not consult whether another cycle
is still running — so a new cycle starts whenever the session is not
aborted. The remaining constructors resume a suspended cycle when its
awaited operation completes (successfully or not) and dispose the
session. -/
inductive SessionStep : SessionState → SessionState → Prop where
  | debounceFire (s : SessionState) (h : s.aborted = false) :
      SessionStep s ⟨s.aborted, s.active ++ [CyclePhase.stopping]⟩
  | stopCompleted (a : Bool) (l1 l2 : List CyclePhase) :
      SessionStep ⟨a, l1 ++ CyclePhase.stopping :: l2⟩ ⟨a, l1 ++ CyclePhase.copying :: l2⟩
  | copyCompleted (a : Bool) (l1 l2 : List CyclePhase) :
      SessionStep ⟨a, l1 ++ CyclePhase.copying :: l2⟩ ⟨a, l1 ++ CyclePhase.starting :: l2⟩
  | startCompleted (a : Bool) (l1 l2 : List CyclePhase) :
      SessionStep ⟨a, l1 ++ CyclePhase.starting :: l2⟩ ⟨a, l1 ++ l2⟩
  | cycleFaulted (a : Bool) (c : CyclePhase) (l1 l2 : List CyclePhase) :
      SessionStep ⟨a, l1 ++ c :: l2⟩ ⟨a, l1 ++ l2⟩
  | disposeSession (s : SessionState) :
      SessionStep s ⟨true, s.active⟩

example : performReload ⟨false, false, Except.ok (), Except.ok (), Except.ok ()⟩ =
    [LEvent.willReload, LEvent.willCopy, LEvent.didCopy, LEvent.willStartClient,
      LEvent.didReload] := by decide

example : performReload ⟨false, true, Except.ok (), Except.ok (), Except.ok ()⟩ =
    [LEvent.willReload, LEvent.willStopClient, LEvent.didStopClient, LEvent.willCopy,
      LEvent.didCopy, LEvent.willStartClient, LEvent.didReload] := by decide

example : performReload ⟨false, false, Except.ok (), Except.error (Fault.ioError "EIO"),
    Except.ok ()⟩ =
    [LEvent.willReload, LEvent.willCopy, LEvent.error (Fault.ioError "EIO")] := by decide

example : performReload ⟨false, false, Except.ok (), Except.error Fault.abortError,
    Except.ok ()⟩ = [LEvent.willReload, LEvent.willCopy] := by decide

example : performReload ⟨true, true, Except.ok (), Except.ok (), Except.ok ()⟩ = [] := by
  decide

example : performAsyncWithRetry (fun i => if i = 0 then Except.error "boom"
    else (Except.ok 7 : Except String Nat)) 3 =
    some { result := Except.ok 7, calls := 2, delays := 1 } := by decide

example : performAsyncWithRetry (fun _ => (Except.error "boom" : Except String Nat)) 3 =
    some { result := Except.error "boom", calls := 3, delays := 2 } := by decide

example : retryCount = 600 := by decide

example : onWatchChange (some "c.exe") (some "other") = false := by decide
example : onWatchChange (some "c.exe") (some "c.exe") = true := by decide
example : onWatchChange none (some "anything") = true := by decide
example : onWatchChange (some "") (some "anything") = true := by decide

/-! ## Helper lemmas about the retry loop -/

/-- If the action fails on invocations `i, …, i + K - 1` and succeeds on
invocation `i + K`, and at least `K` loop iterations remain, the loop stops
at that success: `i + K + 1` invocations in total and `i + K` delays. -/
theorem retryLoop_first_success {ε α : Type} (act : Nat → Except ε α) (a : α) :
    ∀ (K remaining i : Nat), K ≤ remaining →
      (∀ j, j < K → ∃ e, act (i + j) = Except.error e) →
      act (i + K) = Except.ok a →
      retryLoop act remaining i =
        { result := Except.ok a, calls := i + K + 1, delays := i + K } := by
  intro K
  induction K with
  | zero =>
    intro remaining i _ _ hsucc
    simp only [Nat.add_zero] at hsucc
    cases remaining with
    | zero => simp [retryLoop, hsucc]
    | succ r => simp [retryLoop, hsucc]
  | succ K ih =>
    intro remaining i hle hfail hsucc
    cases remaining with
    | zero => exact (Nat.not_succ_le_zero K hle).elim
    | succ r =>
      obtain ⟨e, he⟩ := hfail 0 (Nat.succ_pos K)
      simp only [Nat.add_zero] at he
      simp only [retryLoop, he]
      have hfail2 : ∀ j, j < K → ∃ e, act (i + 1 + j) = Except.error e := by
        intro j hj
        have h := hfail (j + 1) (by omega)
        rwa [show i + (j + 1) = i + 1 + j from by omega] at h
      have hsucc2 : act (i + 1 + K) = Except.ok a := by
        rwa [show i + (K + 1) = i + 1 + K from by omega] at hsucc
      rw [ih r (i + 1) (by omega) hfail2 hsucc2]
      rw [show i + 1 + K = i + (K + 1) from by omega]

/-- If every invocation of the action fails, the loop runs to its end: the
final invocation provides the result, after `remaining + i + 1` invocations
and `remaining + i` delays in total. -/
theorem retryLoop_all_fail {ε α : Type} (act : Nat → Except ε α)
    (hall : ∀ j, ∃ e, act j = Except.error e) :
    ∀ remaining i, retryLoop act remaining i =
      { result := act (remaining + i), calls := remaining + i + 1,
        delays := remaining + i } := by
  intro remaining
  induction remaining with
  | zero => intro i; simp [retryLoop]
  | succ r ih =>
    intro i
    obtain ⟨e, he⟩ := hall i
    simp only [retryLoop, he]
    rw [ih (i + 1)]
    rw [show r + (i + 1) = r + 1 + i from by omega]

/-- The events of the `try`-block of `#performReload` are step markers only:
no `error` event is ever dispatched inside the block (`#emitError` runs only
in the `catch` clause). -/
theorem performReloadTry_no_error_events (env : ReloadEnv) (f : Fault) :
    LEvent.error f ∉ (performReloadTry env).1 := by
  obtain ⟨ab, ns, sr, cr, str⟩ := env
  cases ns <;> cases sr <;> cases cr <;> cases str <;> simp [performReloadTry]

/-! ## The claims -/

/-- C1 (counterexample): a reload cycle that completes without a fault and
without cancellation, with `needsStop()` returning `false`, emits
`willReload, willCopy, didCopy, willStartClient, didReload` — and not the
claimed sequence, because `didStartClient` (DidStartTarget) is never
emitted by `#performReload`. -/
theorem reload_missing_didStartClient_counterexample :
    performReload ⟨false, false, Except.ok (), Except.ok (), Except.ok ()⟩ =
      [LEvent.willReload, LEvent.willCopy, LEvent.didCopy, LEvent.willStartClient,
        LEvent.didReload] ∧
    performReload ⟨false, false, Except.ok (), Except.ok (), Except.ok ()⟩ ≠
      [LEvent.willReload, LEvent.willCopy, LEvent.didCopy, LEvent.willStartClient,
        LEvent.didStartClient, LEvent.didReload] := by
  decide

/-- C1 (amended): for every reload cycle that completes without a fault and
without cancellation, the lifecycle events are emitted in exactly the order
`willReload, willStopClient, didStopClient, willCopy, didCopy,
willStartClient, didReload` when `needsStop()` returns `true`, and in
exactly the order `willReload, willCopy, didCopy, willStartClient,
didReload` when it returns `false`; `didStartClient` is never among them. -/
theorem reload_success_event_order (env : ReloadEnv)
    (ha : env.aborted = false)
    (hstop : env.needsStop = true → env.stopResult = Except.ok ())
    (hcopy : env.copyResult = Except.ok ())
    (hstart : env.startResult = Except.ok ()) :
    performReload env =
      if env.needsStop then
        [LEvent.willReload, LEvent.willStopClient, LEvent.didStopClient, LEvent.willCopy,
          LEvent.didCopy, LEvent.willStartClient, LEvent.didReload]
      else
        [LEvent.willReload, LEvent.willCopy, LEvent.didCopy, LEvent.willStartClient,
          LEvent.didReload] := by
  obtain ⟨ab, ns, sr, cr, str⟩ := env
  dsimp only at ha hstop hcopy hstart ⊢
  subst ha
  subst hcopy
  subst hstart
  cases ns with
  | false => simp [performReload, performReloadTry]
  | true =>
    have hs := hstop rfl
    subst hs
    decide

/-- C1 (amended) witness: the `needsStop() = true` instance. -/
theorem reload_success_event_order_witness :
    performReload ⟨false, true, Except.ok (), Except.ok (), Except.ok ()⟩ =
      [LEvent.willReload, LEvent.willStopClient, LEvent.didStopClient, LEvent.willCopy,
        LEvent.didCopy, LEvent.willStartClient, LEvent.didReload] :=
  reload_success_event_order ⟨false, true, Except.ok (), Except.ok (), Except.ok ()⟩
    rfl (fun _ => rfl) rfl rfl

/-- C2: nothing in the source serializes reload cycles — `#performReload`
is guarded only by the abort check, so a session state with two reload
cycles simultaneously in progress is reachable from the initial state (the
debounce timer fires while the cycle started by its previous firing is
still suspended). This contradicts the mandated single-flight guard. -/
theorem overlapping_reload_cycles_reachable :
    ∃ s : SessionState, Relation.ReflTransGen SessionStep initialSession s ∧
      2 ≤ s.active.length := by
  refine ⟨⟨false, [CyclePhase.stopping, CyclePhase.stopping]⟩, ?_, by decide⟩
  have h1 : SessionStep initialSession ⟨false, [CyclePhase.stopping]⟩ :=
    SessionStep.debounceFire initialSession rfl
  have h2 : SessionStep ⟨false, [CyclePhase.stopping]⟩
      ⟨false, [CyclePhase.stopping, CyclePhase.stopping]⟩ :=
    SessionStep.debounceFire ⟨false, [CyclePhase.stopping]⟩ rfl
  exact Relation.ReflTransGen.head h1 (Relation.ReflTransGen.single h2)

set_option maxRecDepth 4000 in
/-- C3 (counterexample): in a cycle whose controller reports
`needsStop() = true`, a copy failure surviving the retry budget produces
`willReload, willStopClient, didStopClient, willCopy, error` — not exactly
the claimed `willReload, willCopy, error`. -/
theorem copy_exhausted_with_stop_counterexample :
    (performAsyncWithRetry
        (fun _ => (Except.error (Fault.ioError "EIO") : Except Fault Unit))
        retryCount).map RetryTrace.result =
      some (Except.error (Fault.ioError "EIO")) ∧
    performReload ⟨false, true, Except.ok (), Except.error (Fault.ioError "EIO"),
        Except.ok ()⟩ =
      [LEvent.willReload, LEvent.willStopClient, LEvent.didStopClient, LEvent.willCopy,
        LEvent.error (Fault.ioError "EIO")] ∧
    performReload ⟨false, true, Except.ok (), Except.error (Fault.ioError "EIO"),
        Except.ok ()⟩ ≠
      [LEvent.willReload, LEvent.willCopy, LEvent.error (Fault.ioError "EIO")] := by
  decide

/-- C3 (amended): for every reload cycle in which the copy step fails after
exhausting the retry budget with a final fault that is not the cancellation
fault, the cycle emits `willReload, willCopy`, then one `error` event
carrying the final copy fault (preceded by `willStopClient, didStopClient`
between `willReload` and `willCopy` when `needsStop()` returned `true`),
and no `didCopy`, `willStartClient`, `didStartClient` or `didReload`. -/
theorem copy_retry_exhausted_events (env : ReloadEnv)
    (act : Nat → Except Fault Unit) (t : RetryTrace Fault Unit) (f : Fault)
    (ha : env.aborted = false)
    (hstop : env.needsStop = true → env.stopResult = Except.ok ())
    (hall : ∀ j, ∃ e, act j = Except.error e)
    (hretry : performAsyncWithRetry act retryCount = some t)
    (hcopy : env.copyResult = t.result)
    (hlast : act (retryCount - 1) = Except.error f)
    (hnc : f ≠ Fault.abortError) :
    performReload env =
      if env.needsStop then
        [LEvent.willReload, LEvent.willStopClient, LEvent.didStopClient, LEvent.willCopy,
          LEvent.error f]
      else
        [LEvent.willReload, LEvent.willCopy, LEvent.error f] := by
  have h6 : performAsyncWithRetry act retryCount =
      some (retryLoop act (retryCount - 1) 0) := by
    unfold performAsyncWithRetry
    rw [if_neg (by decide)]
  rw [h6] at hretry
  have ht : t = retryLoop act (retryCount - 1) 0 := (Option.some.injEq _ _).mp hretry.symm
  have hres : t.result = Except.error f := by
    rw [ht, retryLoop_all_fail act hall (retryCount - 1) 0]
    simpa using hlast
  rw [hres] at hcopy
  obtain ⟨ab, ns, sr, cr, str⟩ := env
  dsimp only at ha hstop hcopy ⊢
  subst ha
  subst hcopy
  cases ns with
  | false => simp [performReload, performReloadTry, emitError, hnc]
  | true =>
    have hs := hstop rfl
    subst hs
    simp [performReload, performReloadTry, emitError, hnc]

set_option maxRecDepth 4000 in
/-- C3 (amended) witness: a copy action that always fails with an
input/output fault, in a `needsStop() = false` cycle. -/
theorem copy_retry_exhausted_events_witness :
    performReload ⟨false, false, Except.ok (), Except.error (Fault.ioError "EIO"),
        Except.ok ()⟩ =
      [LEvent.willReload, LEvent.willCopy, LEvent.error (Fault.ioError "EIO")] := by
  have h := copy_retry_exhausted_events
    ⟨false, false, Except.ok (), Except.error (Fault.ioError "EIO"), Except.ok ()⟩
    (fun _ => Except.error (Fault.ioError "EIO"))
    { result := Except.error (Fault.ioError "EIO"), calls := retryCount,
      delays := retryCount - 1 }
    (Fault.ioError "EIO") rfl (fun _ => rfl) (fun _ => ⟨Fault.ioError "EIO", rfl⟩)
    (by decide) rfl rfl (by decide)
  exact h

/-- C4: the plans computed for the absolute input path `/a/b/c.exe`:
strategy `commandOnly` yields `copyDest = /a/b/c.exe.BACKUP.exe`,
`watchDir = /a/b`, `watchFile = c.exe` and effective command
`/a/b/c.exe.BACKUP.exe`; strategy `parentDirectory` yields
`copySrc = /a/b`, `copyDest = /a/b.BACKUP.d`, no `watchFile`, and effective
command `/a/b.BACKUP.d/c.exe`. -/
theorem computeBackupOptions_on_example_path :
    computeBackupOptions "/a/b/c.exe" BackupStrategy.commandOnly =
      Except.ok
        { command := "/a/b/c.exe.BACKUP.exe"
          backupOptions :=
            { copyType := CopyType.file
              copySrc := "/a/b/c.exe"
              copyDest := "/a/b/c.exe.BACKUP.exe"
              watchDir := "/a/b"
              watchFile := some "c.exe" } } ∧
    computeBackupOptions "/a/b/c.exe" BackupStrategy.parentDirectory =
      Except.ok
        { command := "/a/b.BACKUP.d/c.exe"
          backupOptions :=
            { copyType := CopyType.directory
              copySrc := "/a/b"
              copyDest := "/a/b.BACKUP.d"
              watchDir := "/a/b"
              watchFile := none } } := by
  decide

/-- C5 (counterexample): `/x/../y` is an absolute path whose parent
directory — `/x/..`, which resolves to `/` — is the filesystem root, yet
`computeBackupOptions` accepts it (the root check runs `path.dirname` on
the path before normalization), returning a plan that watches the root. -/
theorem computeBackupOptions_root_parent_counterexample :
    isAbsolute "/x/../y" = true ∧
    normalize (dirname "/x/../y") = "/" ∧
    computeBackupOptions "/x/../y" BackupStrategy.commandOnly =
      Except.ok
        { command := "/y.BACKUP.exe"
          backupOptions :=
            { copyType := CopyType.file
              copySrc := "/y"
              copyDest := "/y.BACKUP.exe"
              watchDir := "/"
              watchFile := some "y" } } := by
  decide

/-- C5 (amended): `computeBackupOptions` fails with a validation error —
returning no plan, and being pure, performing no I/O or side effect — for
every input path that is not absolute, and for every path whose parent as
computed by `path.dirname` on the given (unnormalized) path is the root
`/`. A path such as `/x/../y`, whose parent only resolves to the root after
normalization, is instead accepted. -/
theorem computeBackupOptions_rejects (cmd : String) (b : BackupStrategy)
    (h : isAbsolute cmd = false ∨ dirname cmd = "/") :
    ∃ msg, computeBackupOptions cmd b = Except.error msg := by
  rcases h with h | h
  · refine ⟨"command (path to LSP server executable) must be absolute: " ++ cmd, ?_⟩
    simp [computeBackupOptions, h]
  · by_cases ha : isAbsolute cmd = true
    · refine ⟨"command must be under a non-root directory.", ?_⟩
      simp [computeBackupOptions, ha, h]
    · have ha2 : isAbsolute cmd = false := by
        cases hb : isAbsolute cmd
        · rfl
        · exact absurd hb ha
      refine ⟨"command (path to LSP server executable) must be absolute: " ++ cmd, ?_⟩
      simp [computeBackupOptions, ha2]

/-- C5 (amended) witness: a relative path and a path directly under the
root are both rejected. -/
theorem computeBackupOptions_rejects_witness :
    (∃ msg, computeBackupOptions "relative/server.exe" BackupStrategy.commandOnly =
      Except.error msg) ∧
    (∃ msg, computeBackupOptions "/server.exe" BackupStrategy.parentDirectory =
      Except.error msg) :=
  ⟨computeBackupOptions_rejects "relative/server.exe" BackupStrategy.commandOnly
      (Or.inl (by decide)),
    computeBackupOptions_rejects "/server.exe" BackupStrategy.parentDirectory
      (Or.inr (by decide))⟩

/-- C6: for every positive attempt count, an action that fails on its first
`K` invocations (`K` below the count) and succeeds on invocation `K + 1`
completes through `performAsyncWithRetry` with that success and no surfaced
failure; an action that fails on every invocation is invoked exactly
`count` times and exactly the final failure — that of the last invocation —
is surfaced. -/
theorem retry_success_and_exhaustion {ε α : Type} (count : Nat)
    (act : Nat → Except ε α) (hc : 0 < count) :
    (∀ (K : Nat) (a : α), K < count →
      (∀ j, j < K → ∃ e, act j = Except.error e) → act K = Except.ok a →
      performAsyncWithRetry act count =
        some { result := Except.ok a, calls := K + 1, delays := K }) ∧
    ((∀ j, ∃ e, act j = Except.error e) →
      (∃ e, act (count - 1) = Except.error e) ∧
      performAsyncWithRetry act count =
        some { result := act (count - 1), calls := count, delays := count - 1 }) := by
  constructor
  · intro K a hK hfail hsucc
    unfold performAsyncWithRetry
    rw [if_neg (by omega)]
    rw [retryLoop_first_success act a K (count - 1) 0 (by omega)
      (by intro j hj; simpa using hfail j hj) (by simpa using hsucc)]
    simp
  · intro hall
    refine ⟨hall (count - 1), ?_⟩
    unfold performAsyncWithRetry
    rw [if_neg (by omega)]
    rw [retryLoop_all_fail act hall (count - 1) 0]
    have h1 : count - 1 + 0 = count - 1 := by omega
    have h2 : count - 1 + 0 + 1 = count := by omega
    rw [h1, h2]

/-- C6 witness: with budget 3, an action failing only on its first
invocation succeeds on the second; an action that always fails is invoked
three times and its last failure is surfaced. -/
theorem retry_success_and_exhaustion_witness :
    performAsyncWithRetry
        (fun i => if i = 0 then Except.error "boom" else (Except.ok 7 : Except String Nat))
        3 = some { result := Except.ok 7, calls := 2, delays := 1 } ∧
    performAsyncWithRetry (fun _ => (Except.error "boom" : Except String Nat)) 3 =
      some { result := Except.error "boom", calls := 3, delays := 2 } := by
  constructor
  · exact (retry_success_and_exhaustion 3
      (fun i => if i = 0 then Except.error "boom" else Except.ok 7) (by decide)).1
      1 7 (by decide)
      (by intro j hj; exact ⟨"boom", by interval_cases j; rfl⟩) rfl
  · exact ((retry_success_and_exhaustion 3
      (fun _ => (Except.error "boom" : Except String Nat)) (by decide)).2
      (fun _ => ⟨"boom", rfl⟩)).2

/-- C7: when the copy kind is `file` and the copy source does not exist,
one invocation of the backup action completes successfully — the `ENOENT`
rejection of `fsP.copyFile` is treated as success — with the file store
(hence the destination) unchanged, and running it under
`performAsyncWithRetry` returns that success after exactly one invocation
and no delay, consuming no retry. -/
theorem file_backup_missing_source (fs : FileSys) (src dest : String) (count : Nat)
    (hmiss : fs src = none) (hc : 0 < count) :
    backupFileAction fs src dest = (fs, Except.ok ()) ∧
    performAsyncWithRetry (fun _ => (backupFileAction fs src dest).2) count =
      some { result := Except.ok (), calls := 1, delays := 0 } := by
  have h1 : backupFileAction fs src dest = (fs, Except.ok ()) := by
    simp [backupFileAction, copyFile, hmiss]
  refine ⟨h1, ?_⟩
  unfold performAsyncWithRetry
  rw [if_neg (by omega)]
  rw [retryLoop_first_success (fun _ => (backupFileAction fs src dest).2) () 0
    (count - 1) 0 (by omega) (by intro j hj; exact absurd hj (Nat.not_lt_zero j))
    (by rw [h1])]

/-- C7 witness: an empty file store, with the retry budget of the
orchestrator. -/
theorem file_backup_missing_source_witness :
    backupFileAction (fun _ => none) "/srv/out/server.exe"
        "/srv/out/server.exe.BACKUP.exe" = ((fun _ => none), Except.ok ()) ∧
    performAsyncWithRetry
        (fun _ => (backupFileAction (fun _ => none) "/srv/out/server.exe"
          "/srv/out/server.exe.BACKUP.exe").2) retryCount =
      some { result := Except.ok (), calls := 1, delays := 0 } :=
  file_backup_missing_source (fun _ => none) "/srv/out/server.exe"
    "/srv/out/server.exe.BACKUP.exe" retryCount rfl (by decide)

/-- C8: a fault caused purely by session cancellation is never surfaced as
an `error` lifecycle event: whenever the awaited operation at which a run of
`#performReload` failed threw the cancellation fault (`AbortError`), the
run dispatches no `error` event at all — `#emitError` swallows it. -/
theorem cancellation_fault_swallowed (env : ReloadEnv)
    (h : firstFault env = some Fault.abortError) :
    ∀ f, LEvent.error f ∉ performReload env := by
  intro f
  unfold firstFault at h
  unfold performReload
  by_cases hab : env.aborted = true
  · rw [if_pos hab] at h
    exact absurd h (by simp)
  · rw [if_neg hab] at h ⊢
    have hne := performReloadTry_no_error_events env f
    rcases hpe : performReloadTry env with ⟨evs, r⟩
    rw [hpe] at h hne
    cases r with
    | ok u => simp at h
    | error f2 =>
      have hf2 : f2 = Fault.abortError := by simpa using h
      subst hf2
      simpa [emitError] using hne

/-- C8 witness: a cycle whose copy step was aborted by disposal dispatches
no `error` event. -/
theorem cancellation_fault_swallowed_witness :
    LEvent.error Fault.abortError ∉
      performReload ⟨false, false, Except.ok (), Except.error Fault.abortError,
        Except.ok ()⟩ :=
  cancellation_fault_swallowed
    ⟨false, false, Except.ok (), Except.error Fault.abortError, Except.ok ()⟩
    (by decide) Fault.abortError

/-- C9 (counterexample): the basename filter of the change handler uses
JavaScript truthiness, so a configuration whose `watchFile` is set to the
empty string — which `computeBackupOptions` itself produces for the
absolute input `/a/..` — does not drop a notification whose basename
differs from `watchFile`. -/
theorem watch_filter_empty_counterexample :
    (some "" : Option String).isSome = true ∧
    ("changed.txt" : String) ≠ "" ∧
    onWatchChange (some "") (some "changed.txt") = true ∧
    computeBackupOptions "/a/.." BackupStrategy.commandOnly =
      Except.ok
        { command := "/.BACKUP.exe"
          backupOptions :=
            { copyType := CopyType.file
              copySrc := "/"
              copyDest := "/.BACKUP.exe"
              watchDir := "/"
              watchFile := some "" } } := by
  decide

/-- C9 (amended): for every watch configuration whose `watchFile` is set to
a non-empty basename, a change notification requests a (debounced) reload
exactly when its entry basename equals `watchFile`; any other notification
— a differing basename, or a notification without a basename — is dropped
before reaching the debouncer. -/
theorem watch_filter (w : String) (hw : w ≠ "") (filename : Option String) :
    onWatchChange (some w) filename = true ↔ filename = some w := by
  by_cases hf : filename = some w
  · subst hf
    simp [onWatchChange]
  · simp only [onWatchChange]
    rw [if_pos]
    · simp [hf]
    · exact ⟨by simpa using hw, fun heq => hf (by simpa using heq.symm)⟩

/-- C9 (amended) witness: a matching basename requests a reload. -/
theorem watch_filter_witness :
    onWatchChange (some "c.exe") (some "c.exe") = true :=
  (watch_filter "c.exe" (by decide) (some "c.exe")).mpr rfl

/-- C10: for every positive attempt count, `performAsyncWithRetry` performs
no further invocations of the action after its first successful invocation
(`K + 1` invocations when the first success is invocation `K + 1`); in
particular an action that succeeds on its first call is invoked exactly
once, its result is returned, and no inter-attempt delay is performed. -/
theorem retry_stops_after_first_success {ε α : Type} (count : Nat)
    (act : Nat → Except ε α) (hc : 0 < count) :
    (∀ (K : Nat) (a : α), K < count →
      (∀ j, j < K → ∃ e, act j = Except.error e) → act K = Except.ok a →
      (performAsyncWithRetry act count).map RetryTrace.calls = some (K + 1)) ∧
    (∀ a : α, act 0 = Except.ok a →
      performAsyncWithRetry act count =
        some { result := Except.ok a, calls := 1, delays := 0 }) := by
  constructor
  · intro K a hK hfail hsucc
    unfold performAsyncWithRetry
    rw [if_neg (by omega)]
    rw [retryLoop_first_success act a K (count - 1) 0 (by omega)
      (by intro j hj; simpa using hfail j hj) (by simpa using hsucc)]
    simp
  · intro a hsucc
    unfold performAsyncWithRetry
    rw [if_neg (by omega)]
    rw [retryLoop_first_success act a 0 (count - 1) 0 (by omega)
      (by intro j hj; exact absurd hj (Nat.not_lt_zero j)) (by simpa using hsucc)]

/-- C10 witness: an action succeeding immediately, under budget 4. -/
theorem retry_stops_after_first_success_witness :
    performAsyncWithRetry (fun _ => (Except.ok 5 : Except String Nat)) 4 =
      some { result := Except.ok 5, calls := 1, delays := 0 } :=
  (retry_stops_after_first_success 4 (fun _ => (Except.ok 5 : Except String Nat))
    (by decide)).2 5 rfl

end LspLiveReload
